import Mathlib

/-!
Shallow embedding of the tab-lifecycle core of `electron-as-browser`
(the `BrowserLikeWindow` class): tab records, the tab order, the active
pointer, the IPC channel handlers, `newTab`/`closeTab`/`switchTab`/
`loadURL`/`setTabConfig`, and the default window-open handler.
JavaScript objects with possibly-absent keys are modelled with `Option`
fields; JavaScript falsiness of numbers (`0`) and strings (`""`) is
modelled explicitly at each truthiness test.
-/

namespace Browser

/-- TabID: BrowserView's webContents id used as tab id (a number). -/
abbrev TabID := Nat

/-- A Tab record as stored in `tabConfigs`.  JavaScript objects built by
spreads may miss keys, so every field is an `Option`; `none` models an
absent (or `undefined`) key. -/
structure TabRec where
  url : Option String := none
  href : Option String := none
  title : Option String := none
  favicon : Option String := none
  isLoading : Option Bool := none
  canGoBack : Option Bool := none
  canGoForward : Option Bool := none
  deriving Repr, DecidableEq

/-- The empty record: spread of `undefined`. -/
def emptyRec : TabRec := {}

/-- JavaScript object spread `\x7b...base, ...kv\x7d`: a key present in `kv`
overrides the one in `base`. -/
def applyPatch (base kv : TabRec) : TabRec where
  url := kv.url <|> base.url
  href := kv.href <|> base.href
  title := kv.title <|> base.title
  favicon := kv.favicon <|> base.favicon
  isLoading := kv.isLoading <|> base.isLoading
  canGoBack := kv.canGoBack <|> base.canGoBack
  canGoForward := kv.canGoForward <|> base.canGoForward

/-- The mutable per-view webContents state the core reads and writes:
navigation capabilities (queried live), the `__IS_INITIALIZED__` marker
(`wired`), how many times the lifecycle-listener block was registered
(`listens`), whether a window-open handler is installed, and the URLs
passed to the session's own `loadURL` primitive. -/
structure Session where
  goBackOk : Bool := false
  goForwardOk : Bool := false
  wired : Bool := false
  listens : Nat := 0
  openHandler : Bool := false
  loads : List String := []
  deriving Repr, DecidableEq

/-- A manager→control message sent through `ipc.reply`. -/
inductive Notif where
  | activeUpdate : Option TabID → Notif
  | tabsUpdate : List (TabID × Option TabRec) → List TabID → Notif
  deriving Repr, DecidableEq

/-- Construction-time options relevant to the claims. -/
structure Config where
  startPage : String := ""
  blankPage : String := ""
  blankTitle : String := ""
  deriving Repr, DecidableEq

/-- `options.blankTitle || 'about:blank'`. -/
def Config.blankTitleEff (c : Config) : String :=
  if c.blankTitle = "" then "about:blank" else c.blankTitle

/-- The state of one `BrowserLikeWindow` instance.  `views` and
`tabConfigs` are JavaScript objects: association lists whose value may be
`none` (the code assigns `undefined` on destroy/close).  `layouts` counts
the bounds assignments performed on the current content view by
`setContentBounds`, and `sent` logs every notification actually delivered
to the control surface. -/
structure BState where
  cfg : Config := {}
  defCurrentViewId : Option TabID := none
  defTabConfigs : List (TabID × Option TabRec) := []
  views : List (TabID × Option Session) := []
  tabs : List TabID := []
  ipc : Bool := false
  nextId : TabID := 1
  layouts : Nat := 0
  sent : List Notif := []
  deriving Repr, DecidableEq

/-- Update-or-insert in an association list (JavaScript object
assignment / single-key spread override). -/
def assocSet {α β : Type} [DecidableEq α] : List (α × β) → α → β → List (α × β)
  | [], k, v => [(k, v)]
  | (k', v') :: rest, k, v =>
      if k' = k then (k, v) :: rest else (k', v') :: assocSet rest k v

/-- Object lookup returning `undefined` both for a missing key and for a
key stored with value `undefined`. -/
def assocGet {α β : Type} [DecidableEq α] (l : List (α × Option β)) (k : α) : Option β :=
  match l.lookup k with
  | some v => v
  | none => none

/-- `this.views[viewId]`'s webContents. -/
def getView (s : BState) (id : TabID) : Option Session :=
  assocGet s.views id

/-- `this.tabConfigs[viewId]`. -/
def tabConfig (s : BState) (id : TabID) : Option TabRec :=
  assocGet s.defTabConfigs id

/-- `this.currentView`: `this.currentViewId ? this.views[this.currentViewId] : null`
(a `0` id is falsy). -/
def currentView (s : BState) : Option (TabID × Session) :=
  match s.defCurrentViewId with
  | none => none
  | some id => if id = 0 then none else (getView s id).map (fun w => (id, w))

/-- `setContentBounds`: recomputes and assigns the content view's bounds
when a current view exists. -/
def setContentBounds (s : BState) : BState :=
  match currentView s with
  | some _ => { s with layouts := s.layouts + 1 }
  | none => s

/-- `if (this.ipc) this.ipc.reply(...)`: deliver a notification only when
the reply handle has been captured; otherwise it is silently dropped. -/
def notifyCtl (s : BState) (m : Notif) : BState :=
  if s.ipc then { s with sent := s.sent ++ [m] } else s

/-- The `currentViewId` setter: stores the id, recomputes layout, and —
when the reply handle is captured — notifies the control surface. -/
def currentViewIdSet (s : BState) (id : Option TabID) : BState :=
  notifyCtl (setContentBounds { s with defCurrentViewId := id })
    (Notif.activeUpdate id)

/-- The `tabConfigs` setter: stores the map and — when the reply handle is
captured — sends the full snapshot. -/
def tabConfigsSet (s : BState) (v : List (TabID × Option TabRec)) : BState :=
  notifyCtl { s with defTabConfigs := v } (Notif.tabsUpdate v s.tabs)

/-- `setTabConfig(viewId, kv)`: merges `kv` onto the stored record,
refreshing `canGoBack`/`canGoForward` from the live webContents (falling
back to `false` when the view is gone) before the patch is spread on top. -/
def setTabConfig (s : BState) (viewId : TabID) (kv : TabRec) : BState :=
  let tab := tabConfig s viewId
  let wc := getView s viewId
  let merged :=
    applyPatch
      { tab.getD emptyRec with
          canGoBack := some ((wc.map Session.goBackOk).getD false)
          canGoForward := some ((wc.map Session.goForwardOk).getD false) }
      kv
  tabConfigsSet s (assocSet s.defTabConfigs viewId (some merged))

/-- `setCurrentView(viewId)`: no-op on a falsy id; otherwise swaps the
attached BrowserView and assigns `currentViewId` through its setter. -/
def setCurrentView (s : BState) (viewId : Option TabID) : BState :=
  match viewId with
  | none => s
  | some id => if id = 0 then s else currentViewIdSet s (some id)

/-- Replace the stored session of view `id`. -/
def updateView (s : BState) (id : TabID) (f : Session → Session) : BState :=
  match getView s id with
  | some w => { s with views := assocSet s.views id (some (f w)) }
  | none => s

/-- `loadURL(url)`: no-op without a url or a current view.  On an already
wired webContents it only delegates to the session's `loadURL`;
otherwise it installs the window-open handler, registers the lifecycle
listeners once, navigates, sets the `__IS_INITIALIZED__` marker and
recomputes layout. -/
def loadURL (s : BState) (url : String) : BState :=
  if url = "" then s
  else
    match currentView s with
    | none => s
    | some (id, wc) =>
      if wc.wired then
        updateView s id (fun w => { w with loads := w.loads ++ [url] })
      else
        let s1 := updateView s id (fun w =>
          { w with openHandler := true, listens := w.listens + 1,
                   loads := w.loads ++ [url], wired := true })
        setContentBounds s1

/-- JavaScript `Array.prototype.indexOf`: `-1` when absent. -/
def jsIndexOf (l : List TabID) (x : TabID) : Int :=
  match l.indexOf? x with
  | some k => (k : Int)
  | none => -1

/-- `splice(i, 0, x)` at a non-negative index. -/
def spliceIns (l : List TabID) (i : Nat) (x : TabID) : List TabID :=
  l.take i ++ [x] ++ l.drop i

/-- Placement of a fresh id in the tab order: spliced immediately after
`appendTo` when that argument is truthy (`indexOf` yielding `-1` puts it
at the front), otherwise pushed at the end. -/
def insertTab (tabs : List TabID) (appendTo : Option TabID) (id : TabID) :
    List TabID :=
  match appendTo with
  | some a =>
      if a = 0 then tabs ++ [id]
      else spliceIns tabs (jsIndexOf tabs a + 1).toNat id
  | none => tabs ++ [id]

/-- `newTab(url, appendTo)`: allocates a view with a fresh id, places it
in the tab order, registers the view, activates it, navigates when a url
was given, and seeds the Tab record with the blank title. -/
def newTab (s : BState) (url : String) (appendTo : Option TabID) : BState :=
  let id := s.nextId
  let s1 := { s with nextId := s.nextId + 1 }
  let s2 := { s1 with tabs := insertTab s1.tabs appendTo id }
  let s3 := { s2 with views := assocSet s2.views id (some {}) }
  let s4 := setCurrentView s3 (some id)
  let s5 := if url = "" then s4 else loadURL s4 url
  setTabConfig s5 id { title := some s.cfg.blankTitleEff }

/-- `switchTab(viewId)`. -/
def switchTab (s : BState) (viewId : TabID) : BState :=
  setCurrentView s (some viewId)

/-- `destroyView(viewId)`: destroys the webContents and clears the map
entry; a no-op when the view is already gone. -/
def destroyView (s : BState) (viewId : TabID) : BState :=
  match getView s viewId with
  | some _ => { s with views := assocSet s.views viewId none }
  | none => s

/-- The next index chosen by the `close-tab` handler before removal:
`removeIndex === this.tabs.length - 1 ? 0 : removeIndex + 1`. -/
def closeNextIndex (tabs : List TabID) (id : TabID) : Int :=
  if jsIndexOf tabs id = (tabs.length : Int) - 1 then 0
  else jsIndexOf tabs id + 1

/-- First phase of the `close-tab` handler: when the closed tab is the
active one, activate the entry at the wrapped next index. -/
def closeReassign (s : BState) (id : TabID) : BState :=
  if s.defCurrentViewId = some id then
    setCurrentView s s.tabs[(closeNextIndex s.tabs id).toNat]?
  else s

/-- The `close-tab` channel handler: when closing the active tab it first
activates the entry after it (wrapping to index 0 when it was last),
then filters the id out of the order, clears its Tab record, destroys
the view, and respawns a blank tab when the order became empty. -/
def closeTab (s : BState) (id : TabID) : BState :=
  let s1 := closeReassign s id
  let s2 := { s1 with tabs := s1.tabs.filter (fun v => v ≠ id) }
  let s3 := tabConfigsSet s2 (assocSet s2.defTabConfigs id none)
  let s4 := destroyView s3 id
  if s4.tabs.length = 0 then newTab s4 s4.cfg.blankPage none else s4

/-- The `url-change` channel handler: update the active tab's address-bar
value (guarded by the truthiness of `currentViewId`). -/
def urlChange (s : BState) (url : String) : BState :=
  match s.defCurrentViewId with
  | some id => if id = 0 then s else setTabConfig s id { url := some url }
  | none => s

/-- The `control-ready` channel handler: captures the reply handle and
opens the configured start page in a fresh tab. -/
def controlReady (s : BState) : BState :=
  newTab { s with ipc := true } s.cfg.startPage none

/-- The initial state of a freshly constructed `BrowserLikeWindow` with
options `c`: no current view, empty maps and order, no reply handle. -/
def initState (c : Config) : BState := { cfg := c }

/-! URL parsing.  The window-open handler calls the platform's WHATWG
`URL` constructor, which throws on a string without a valid scheme and
yields an empty host for opaque-path URLs such as `about:blank`.  The
model below covers the fragment the handler relies on: scheme
recognition, authority/host extraction (userinfo and port stripped), the
special schemes' mandatory non-empty host, and parse failure as `none`.
IPv6 literals, percent-encoding and `file:` drive-letter quirks are not
modelled. -/

structure URLRec where
  scheme : String
  host : String
  deriving Repr, DecidableEq

def isSchemeChar (c : Char) : Bool :=
  c.isAlphanum || c = '+' || c = '-' || c = '.'

/-- Scan the remainder of a scheme up to the first `:`. -/
def schemeRest : List Char → List Char → Option (List Char × List Char)
  | _, [] => none
  | acc, c :: rest =>
      if c = ':' then some (acc.reverse, rest)
      else if isSchemeChar c then schemeRest (c :: acc) rest
      else none

/-- Split a URL string into scheme and remainder; `none` when the string
has no valid scheme, in which case the `URL` constructor throws. -/
def splitScheme : List Char → Option (List Char × List Char)
  | [] => none
  | c :: rest => if c.isAlpha then schemeRest [c] rest else none

def specialSchemes : List String := ["http", "https", "ws", "wss", "ftp"]

def isAuthorityEnd (c : Char) : Bool :=
  c = '/' || c = '\\' || c = '?' || c = '#'

/-- Host of an authority component: text after the last `@` and before
the port separator. -/
def hostOfAuthority (auth : List Char) : List Char :=
  let noUser := if auth.contains '@'
    then (auth.reverse.takeWhile (fun c => c ≠ '@')).reverse
    else auth
  noUser.takeWhile (fun c => c ≠ ':')

/-- Model of `new URL(s)` restricted to scheme and host: `none` models a
thrown `TypeError`. -/
def parseURL (s : String) : Option URLRec :=
  match splitScheme s.data with
  | none => none
  | some (sch, rest) =>
    let scheme := String.mk (sch.map Char.toLower)
    if specialSchemes.contains scheme then
      let rest1 := rest.dropWhile (fun c => c = '/' || c = '\\')
      let host := hostOfAuthority (rest1.takeWhile (fun c => !isAuthorityEnd c))
      if host = [] then none else some ⟨scheme, String.mk host⟩
    else
      match rest with
      | '/' :: '/' :: rest1 =>
          some ⟨scheme, String.mk
            (hostOfAuthority (rest1.takeWhile (fun c => !isAuthorityEnd c)))⟩
      | _ => some ⟨scheme, ""⟩

/-- Outcome of a window-open decision as returned to the runtime. -/
inductive OpenAction where
  | deny
  | allow
  deriving Repr, DecidableEq

/-- The default `onNewWindow` window-open handler installed by `loadURL`
for the surface `originId`: parse the target (throwing on an invalid
URL), deny hostless targets, allow a genuine `new-window` disposition,
and otherwise open the target as a new tab spliced after the originating
surface while denying the native window. -/
def onNewWindow (s : BState) (originId : TabID) (url disposition : String) :
    Except String (OpenAction × BState) :=
  match parseURL url with
  | none => Except.error "Invalid URL"
  | some u =>
    if u.host = "" then Except.ok (OpenAction.deny, s)
    else if disposition = "new-window" then Except.ok (OpenAction.allow, s)
    else Except.ok (OpenAction.deny, newTab s url (some originId))

/-! The operation language of claim C1: sequences of tab create and
close operations from the initial state. -/

inductive TabOp where
  | create (url : String) (appendTo : Option TabID)
  | close (id : TabID)
  deriving Repr, DecidableEq

def stepOp (s : BState) : TabOp → BState
  | TabOp.create url a => newTab s url a
  | TabOp.close id => closeTab s id

def runOps (s : BState) (ops : List TabOp) : BState := ops.foldl stepOp s

/-- The active-pointer invariant of the spec: either no active surface
and an empty order, or the pointer references a member of the order. -/
def activePtrOk (s : BState) : Prop :=
  (s.defCurrentViewId = none ∧ s.tabs = []) ∨
  (∃ id, s.defCurrentViewId = some id ∧ id ∈ s.tabs)

instance (s : BState) : Decidable (activePtrOk s) := by
  unfold activePtrOk
  cases h : s.defCurrentViewId with
  | none => exact decidable_of_iff (s.tabs = []) (by simp [h])
  | some id => exact decidable_of_iff (id ∈ s.tabs) (by simp [h])

/-- Well-formedness preserved by every create/close step: ids are
positive and below the allocator, the order is duplicate-free, and the
active pointer is coherent. -/
def Wf (s : BState) : Prop :=
  1 ≤ s.nextId ∧ (∀ t ∈ s.tabs, 1 ≤ t ∧ t < s.nextId) ∧
    s.tabs.Nodup ∧ activePtrOk s

instance (s : BState) : Decidable (Wf s) := by
  unfold Wf
  infer_instance

/-! Frame lemmas: which state fields each primitive leaves untouched. -/

lemma spliceIns_perm (l : List TabID) (i : Nat) (x : TabID) :
    List.Perm (spliceIns l i x) (x :: l) := by
  unfold spliceIns
  have h2 : List.Perm (l.take i ++ x :: l.drop i) (x :: (l.take i ++ l.drop i)) :=
    List.perm_middle
  rw [List.take_append_drop] at h2
  simpa using h2

lemma mem_spliceIns {y : TabID} (l : List TabID) (i : Nat) (x : TabID) :
    y ∈ spliceIns l i x ↔ y = x ∨ y ∈ l := by
  rw [(spliceIns_perm l i x).mem_iff]; simp

lemma spliceIns_nodup {l : List TabID} {x : TabID} (i : Nat)
    (hl : l.Nodup) (hx : x ∉ l) : (spliceIns l i x).Nodup :=
  ((spliceIns_perm l i x).nodup_iff).mpr (List.nodup_cons.mpr ⟨hx, hl⟩)

@[simp] lemma setContentBounds_tabs (s : BState) :
    (setContentBounds s).tabs = s.tabs := by
  unfold setContentBounds; split <;> rfl

@[simp] lemma setContentBounds_ptr (s : BState) :
    (setContentBounds s).defCurrentViewId = s.defCurrentViewId := by
  unfold setContentBounds; split <;> rfl

@[simp] lemma setContentBounds_nextId (s : BState) :
    (setContentBounds s).nextId = s.nextId := by
  unfold setContentBounds; split <;> rfl

@[simp] lemma setContentBounds_cfg (s : BState) :
    (setContentBounds s).cfg = s.cfg := by
  unfold setContentBounds; split <;> rfl

@[simp] lemma setContentBounds_ipc (s : BState) :
    (setContentBounds s).ipc = s.ipc := by
  unfold setContentBounds; split <;> rfl

@[simp] lemma setContentBounds_views (s : BState) :
    (setContentBounds s).views = s.views := by
  unfold setContentBounds; split <;> rfl

@[simp] lemma setContentBounds_confs (s : BState) :
    (setContentBounds s).defTabConfigs = s.defTabConfigs := by
  unfold setContentBounds; split <;> rfl

@[simp] lemma setContentBounds_sent (s : BState) :
    (setContentBounds s).sent = s.sent := by
  unfold setContentBounds; split <;> rfl

@[simp] lemma notifyCtl_ptr (s : BState) (m : Notif) :
    (notifyCtl s m).defCurrentViewId = s.defCurrentViewId := by
  unfold notifyCtl; split <;> rfl

@[simp] lemma notifyCtl_tabs (s : BState) (m : Notif) :
    (notifyCtl s m).tabs = s.tabs := by
  unfold notifyCtl; split <;> rfl

@[simp] lemma notifyCtl_nextId (s : BState) (m : Notif) :
    (notifyCtl s m).nextId = s.nextId := by
  unfold notifyCtl; split <;> rfl

@[simp] lemma notifyCtl_cfg (s : BState) (m : Notif) :
    (notifyCtl s m).cfg = s.cfg := by
  unfold notifyCtl; split <;> rfl

@[simp] lemma notifyCtl_ipc (s : BState) (m : Notif) :
    (notifyCtl s m).ipc = s.ipc := by
  unfold notifyCtl; split <;> rfl

@[simp] lemma notifyCtl_views (s : BState) (m : Notif) :
    (notifyCtl s m).views = s.views := by
  unfold notifyCtl; split <;> rfl

@[simp] lemma notifyCtl_confs (s : BState) (m : Notif) :
    (notifyCtl s m).defTabConfigs = s.defTabConfigs := by
  unfold notifyCtl; split <;> rfl

@[simp] lemma notifyCtl_layouts (s : BState) (m : Notif) :
    (notifyCtl s m).layouts = s.layouts := by
  unfold notifyCtl; split <;> rfl

lemma notifyCtl_sent_true (s : BState) (m : Notif) (h : s.ipc = true) :
    (notifyCtl s m).sent = s.sent ++ [m] := by
  unfold notifyCtl; simp [h]

lemma notifyCtl_sent_false (s : BState) (m : Notif) (h : s.ipc = false) :
    (notifyCtl s m).sent = s.sent := by
  unfold notifyCtl; simp [h]

@[simp] lemma currentViewIdSet_ptr (s : BState) (id : Option TabID) :
    (currentViewIdSet s id).defCurrentViewId = id := by
  unfold currentViewIdSet; simp

@[simp] lemma currentViewIdSet_tabs (s : BState) (id : Option TabID) :
    (currentViewIdSet s id).tabs = s.tabs := by
  unfold currentViewIdSet; simp

@[simp] lemma currentViewIdSet_nextId (s : BState) (id : Option TabID) :
    (currentViewIdSet s id).nextId = s.nextId := by
  unfold currentViewIdSet; simp

@[simp] lemma currentViewIdSet_cfg (s : BState) (id : Option TabID) :
    (currentViewIdSet s id).cfg = s.cfg := by
  unfold currentViewIdSet; simp

@[simp] lemma currentViewIdSet_ipc (s : BState) (id : Option TabID) :
    (currentViewIdSet s id).ipc = s.ipc := by
  unfold currentViewIdSet; simp

@[simp] lemma currentViewIdSet_views (s : BState) (id : Option TabID) :
    (currentViewIdSet s id).views = s.views := by
  unfold currentViewIdSet; simp

@[simp] lemma currentViewIdSet_confs (s : BState) (id : Option TabID) :
    (currentViewIdSet s id).defTabConfigs = s.defTabConfigs := by
  unfold currentViewIdSet; simp

@[simp] lemma tabConfigsSet_tabs (s : BState) (v : List (TabID × Option TabRec)) :
    (tabConfigsSet s v).tabs = s.tabs := by
  unfold tabConfigsSet; simp

@[simp] lemma tabConfigsSet_ptr (s : BState) (v : List (TabID × Option TabRec)) :
    (tabConfigsSet s v).defCurrentViewId = s.defCurrentViewId := by
  unfold tabConfigsSet; simp

@[simp] lemma tabConfigsSet_nextId (s : BState) (v : List (TabID × Option TabRec)) :
    (tabConfigsSet s v).nextId = s.nextId := by
  unfold tabConfigsSet; simp

@[simp] lemma tabConfigsSet_cfg (s : BState) (v : List (TabID × Option TabRec)) :
    (tabConfigsSet s v).cfg = s.cfg := by
  unfold tabConfigsSet; simp

@[simp] lemma tabConfigsSet_ipc (s : BState) (v : List (TabID × Option TabRec)) :
    (tabConfigsSet s v).ipc = s.ipc := by
  unfold tabConfigsSet; simp

@[simp] lemma tabConfigsSet_views (s : BState) (v : List (TabID × Option TabRec)) :
    (tabConfigsSet s v).views = s.views := by
  unfold tabConfigsSet; simp

@[simp] lemma tabConfigsSet_confs (s : BState) (v : List (TabID × Option TabRec)) :
    (tabConfigsSet s v).defTabConfigs = v := by
  unfold tabConfigsSet; simp

@[simp] lemma tabConfigsSet_layouts (s : BState) (v : List (TabID × Option TabRec)) :
    (tabConfigsSet s v).layouts = s.layouts := by
  unfold tabConfigsSet; simp

@[simp] lemma setTabConfig_tabs (s : BState) (id : TabID) (kv : TabRec) :
    (setTabConfig s id kv).tabs = s.tabs := by
  unfold setTabConfig; simp

@[simp] lemma setTabConfig_ptr (s : BState) (id : TabID) (kv : TabRec) :
    (setTabConfig s id kv).defCurrentViewId = s.defCurrentViewId := by
  unfold setTabConfig; simp

@[simp] lemma setTabConfig_nextId (s : BState) (id : TabID) (kv : TabRec) :
    (setTabConfig s id kv).nextId = s.nextId := by
  unfold setTabConfig; simp

@[simp] lemma setTabConfig_cfg (s : BState) (id : TabID) (kv : TabRec) :
    (setTabConfig s id kv).cfg = s.cfg := by
  unfold setTabConfig; simp

@[simp] lemma setTabConfig_ipc (s : BState) (id : TabID) (kv : TabRec) :
    (setTabConfig s id kv).ipc = s.ipc := by
  unfold setTabConfig; simp

@[simp] lemma setTabConfig_views (s : BState) (id : TabID) (kv : TabRec) :
    (setTabConfig s id kv).views = s.views := by
  unfold setTabConfig; simp

@[simp] lemma setTabConfig_layouts (s : BState) (id : TabID) (kv : TabRec) :
    (setTabConfig s id kv).layouts = s.layouts := by
  unfold setTabConfig; simp

@[simp] lemma updateView_tabs (s : BState) (id : TabID) (f : Session → Session) :
    (updateView s id f).tabs = s.tabs := by
  unfold updateView; split <;> rfl

@[simp] lemma updateView_ptr (s : BState) (id : TabID) (f : Session → Session) :
    (updateView s id f).defCurrentViewId = s.defCurrentViewId := by
  unfold updateView; split <;> rfl

@[simp] lemma updateView_nextId (s : BState) (id : TabID) (f : Session → Session) :
    (updateView s id f).nextId = s.nextId := by
  unfold updateView; split <;> rfl

@[simp] lemma updateView_cfg (s : BState) (id : TabID) (f : Session → Session) :
    (updateView s id f).cfg = s.cfg := by
  unfold updateView; split <;> rfl

@[simp] lemma updateView_ipc (s : BState) (id : TabID) (f : Session → Session) :
    (updateView s id f).ipc = s.ipc := by
  unfold updateView; split <;> rfl

@[simp] lemma updateView_confs (s : BState) (id : TabID) (f : Session → Session) :
    (updateView s id f).defTabConfigs = s.defTabConfigs := by
  unfold updateView; split <;> rfl

@[simp] lemma updateView_sent (s : BState) (id : TabID) (f : Session → Session) :
    (updateView s id f).sent = s.sent := by
  unfold updateView; split <;> rfl

@[simp] lemma updateView_layouts (s : BState) (id : TabID) (f : Session → Session) :
    (updateView s id f).layouts = s.layouts := by
  unfold updateView; split <;> rfl

@[simp] lemma loadURL_tabs (s : BState) (url : String) :
    (loadURL s url).tabs = s.tabs := by
  unfold loadURL; split
  · rfl
  · split
    · rfl
    · split <;> simp

@[simp] lemma loadURL_ptr (s : BState) (url : String) :
    (loadURL s url).defCurrentViewId = s.defCurrentViewId := by
  unfold loadURL; split
  · rfl
  · split
    · rfl
    · split <;> simp

@[simp] lemma loadURL_nextId (s : BState) (url : String) :
    (loadURL s url).nextId = s.nextId := by
  unfold loadURL; split
  · rfl
  · split
    · rfl
    · split <;> simp

@[simp] lemma loadURL_cfg (s : BState) (url : String) :
    (loadURL s url).cfg = s.cfg := by
  unfold loadURL; split
  · rfl
  · split
    · rfl
    · split <;> simp

@[simp] lemma loadURL_ipc (s : BState) (url : String) :
    (loadURL s url).ipc = s.ipc := by
  unfold loadURL; split
  · rfl
  · split
    · rfl
    · split <;> simp

@[simp] lemma loadURL_confs (s : BState) (url : String) :
    (loadURL s url).defTabConfigs = s.defTabConfigs := by
  unfold loadURL; split
  · rfl
  · split
    · rfl
    · split <;> simp

@[simp] lemma loadURL_sent (s : BState) (url : String) :
    (loadURL s url).sent = s.sent := by
  unfold loadURL; split
  · rfl
  · split
    · rfl
    · split <;> simp

@[simp] lemma destroyView_tabs (s : BState) (id : TabID) :
    (destroyView s id).tabs = s.tabs := by
  unfold destroyView; split <;> rfl

@[simp] lemma destroyView_ptr (s : BState) (id : TabID) :
    (destroyView s id).defCurrentViewId = s.defCurrentViewId := by
  unfold destroyView; split <;> rfl

@[simp] lemma destroyView_nextId (s : BState) (id : TabID) :
    (destroyView s id).nextId = s.nextId := by
  unfold destroyView; split <;> rfl

@[simp] lemma destroyView_cfg (s : BState) (id : TabID) :
    (destroyView s id).cfg = s.cfg := by
  unfold destroyView; split <;> rfl

@[simp] lemma destroyView_ipc (s : BState) (id : TabID) :
    (destroyView s id).ipc = s.ipc := by
  unfold destroyView; split <;> rfl

@[simp] lemma destroyView_confs (s : BState) (id : TabID) :
    (destroyView s id).defTabConfigs = s.defTabConfigs := by
  unfold destroyView; split <;> rfl

@[simp] lemma destroyView_sent (s : BState) (id : TabID) :
    (destroyView s id).sent = s.sent := by
  unfold destroyView; split <;> rfl

@[simp] lemma destroyView_layouts (s : BState) (id : TabID) :
    (destroyView s id).layouts = s.layouts := by
  unfold destroyView; split <;> rfl

lemma setCurrentView_some {id : TabID} (s : BState) (h : id ≠ 0) :
    setCurrentView s (some id) = currentViewIdSet s (some id) := by
  unfold setCurrentView; simp [h]

@[simp] lemma setCurrentView_none (s : BState) :
    setCurrentView s none = s := rfl

@[simp] lemma setCurrentView_tabs (s : BState) (v : Option TabID) :
    (setCurrentView s v).tabs = s.tabs := by
  unfold setCurrentView; split
  · rfl
  · split <;> simp

@[simp] lemma setCurrentView_nextId (s : BState) (v : Option TabID) :
    (setCurrentView s v).nextId = s.nextId := by
  unfold setCurrentView; split
  · rfl
  · split <;> simp

@[simp] lemma setCurrentView_cfg (s : BState) (v : Option TabID) :
    (setCurrentView s v).cfg = s.cfg := by
  unfold setCurrentView; split
  · rfl
  · split <;> simp

@[simp] lemma setCurrentView_ipc (s : BState) (v : Option TabID) :
    (setCurrentView s v).ipc = s.ipc := by
  unfold setCurrentView; split
  · rfl
  · split <;> simp

@[simp] lemma setCurrentView_views (s : BState) (v : Option TabID) :
    (setCurrentView s v).views = s.views := by
  unfold setCurrentView; split
  · rfl
  · split <;> simp

@[simp] lemma setCurrentView_confs (s : BState) (v : Option TabID) :
    (setCurrentView s v).defTabConfigs = s.defTabConfigs := by
  unfold setCurrentView; split
  · rfl
  · split <;> simp

lemma setCurrentView_ptr (s : BState) (id : TabID) :
    (setCurrentView s (some id)).defCurrentViewId =
      if id = 0 then s.defCurrentViewId else some id := by
  unfold setCurrentView
  by_cases h : id = 0 <;> simp [h]

/-! Facts about `indexOf?` of a natural-number id and about the splice
placement. -/

lemma indexOf?_of_mem {l : List TabID} {x : TabID} (h : x ∈ l) :
    ∃ k, l.indexOf? x = some k ∧ k < l.length ∧ l[k]? = some x := by
  induction l with
  | nil => cases h
  | cons a l ih =>
    rw [List.indexOf?_cons]
    by_cases hax : a = x
    · exact ⟨0, by simp [hax], by simp, by simp [hax]⟩
    · have hx : x ∈ l := by
        rcases List.mem_cons.mp h with h' | h'
        · exact absurd h'.symm hax
        · exact h'
      obtain ⟨k, hk, hkl, hkg⟩ := ih hx
      refine ⟨k + 1, ?_, by simp only [List.length_cons]; omega, by simpa using hkg⟩
      simp [hax, hk]

lemma indexOf?_of_not_mem {l : List TabID} {x : TabID} (h : x ∉ l) :
    l.indexOf? x = none := by
  rw [List.indexOf?_eq_none_iff]
  intro y hy
  simp only [beq_iff_eq]
  rintro rfl
  exact h hy

lemma mem_insertTab_self (tabs : List TabID) (a : Option TabID) (id : TabID) :
    id ∈ insertTab tabs a id := by
  unfold insertTab
  rcases a with _ | x
  · simp
  · by_cases hx : x = 0 <;> simp [hx, mem_spliceIns]

lemma mem_insertTab {y : TabID} (tabs : List TabID) (a : Option TabID) (id : TabID) :
    y ∈ insertTab tabs a id ↔ y = id ∨ y ∈ tabs := by
  unfold insertTab
  rcases a with _ | x
  · simp [or_comm]
  · by_cases hx : x = 0 <;> simp [hx, mem_spliceIns, or_comm]

lemma insertTab_nodup {tabs : List TabID} {id : TabID} (a : Option TabID)
    (h : tabs.Nodup) (hid : id ∉ tabs) : (insertTab tabs a id).Nodup := by
  unfold insertTab
  have happ : (tabs ++ [id]).Nodup := by
    rw [List.nodup_append]
    exact ⟨h, List.nodup_singleton id, by simpa using hid⟩
  rcases a with _ | x
  · exact happ
  · by_cases hx : x = 0
    · simpa [hx] using happ
    · simpa [hx] using spliceIns_nodup _ h hid

/-! Characterization of `newTab`. -/

lemma newTab_tabs (s : BState) (url : String) (a : Option TabID) :
    (newTab s url a).tabs = insertTab s.tabs a s.nextId := by
  unfold newTab
  simp only [setTabConfig_tabs]
  split <;> simp

lemma newTab_nextId (s : BState) (url : String) (a : Option TabID) :
    (newTab s url a).nextId = s.nextId + 1 := by
  unfold newTab
  simp only [setTabConfig_nextId]
  split <;> simp

lemma newTab_cfg (s : BState) (url : String) (a : Option TabID) :
    (newTab s url a).cfg = s.cfg := by
  unfold newTab
  simp only [setTabConfig_cfg]
  split <;> simp

lemma newTab_ipc (s : BState) (url : String) (a : Option TabID) :
    (newTab s url a).ipc = s.ipc := by
  unfold newTab
  simp only [setTabConfig_ipc]
  split <;> simp

lemma newTab_ptr (s : BState) (url : String) (a : Option TabID)
    (h : s.nextId ≠ 0) :
    (newTab s url a).defCurrentViewId = some s.nextId := by
  unfold newTab
  simp only [setTabConfig_ptr]
  split <;> simp [setCurrentView_ptr, h]

/-- Creation preserves well-formedness (the active-pointer part of the
input is not even needed: the fresh tab becomes the active member). -/
lemma wf_newTab {s : BState} (url : String) (a : Option TabID)
    (h1 : 1 ≤ s.nextId) (h2 : ∀ t ∈ s.tabs, 1 ≤ t ∧ t < s.nextId)
    (h3 : s.tabs.Nodup) : Wf (newTab s url a) := by
  have hid0 : s.nextId ≠ 0 := by unfold TabID at *; omega
  have hnm : s.nextId ∉ s.tabs := fun hm => by
    have := (h2 _ hm).2; unfold TabID at *; omega
  refine ⟨?_, ?_, ?_, Or.inr ⟨s.nextId, newTab_ptr s url a hid0, ?_⟩⟩
  · rw [newTab_nextId]; unfold TabID at *; omega
  · intro t ht
    rw [newTab_tabs] at ht
    rw [newTab_nextId]
    rcases (mem_insertTab _ _ _).mp ht with rfl | hts
    · unfold TabID at *; omega
    · have := h2 t hts; unfold TabID at *; omega
  · rw [newTab_tabs]; exact insertTab_nodup a h3 hnm
  · rw [newTab_tabs]; exact mem_insertTab_self _ _ _

/-! Characterization of the `close-tab` handler. -/

/-- The immediate successor of `x` in the order, wrapping to the first
entry when `x` is last (the tab the handler activates before removal). -/
def succWrap (l : List TabID) (x : TabID) : Option TabID :=
  match l.indexOf? x with
  | none => none
  | some k => if k = l.length - 1 then l[0]? else l[k + 1]?

lemma closeReassign_nonactive {s : BState} {id : TabID}
    (h : s.defCurrentViewId ≠ some id) : closeReassign s id = s := by
  unfold closeReassign; simp [h]

@[simp] lemma closeReassign_tabs (s : BState) (id : TabID) :
    (closeReassign s id).tabs = s.tabs := by
  unfold closeReassign; split <;> simp

@[simp] lemma closeReassign_nextId (s : BState) (id : TabID) :
    (closeReassign s id).nextId = s.nextId := by
  unfold closeReassign; split <;> simp

@[simp] lemma closeReassign_cfg (s : BState) (id : TabID) :
    (closeReassign s id).cfg = s.cfg := by
  unfold closeReassign; split <;> simp

@[simp] lemma closeReassign_ipc (s : BState) (id : TabID) :
    (closeReassign s id).ipc = s.ipc := by
  unfold closeReassign; split <;> simp

@[simp] lemma closeReassign_views (s : BState) (id : TabID) :
    (closeReassign s id).views = s.views := by
  unfold closeReassign; split <;> simp

@[simp] lemma closeReassign_confs (s : BState) (id : TabID) :
    (closeReassign s id).defTabConfigs = s.defTabConfigs := by
  unfold closeReassign; split <;> simp

/-- When the closed tab is the active one, the reassignment phase
activates exactly the wrapped successor, which is a live positive member
of the order and differs from the closed id whenever another tab
remains. -/
lemma closeReassign_active {s : BState} {id : TabID}
    (h2 : ∀ t ∈ s.tabs, 1 ≤ t ∧ t < s.nextId) (h3 : s.tabs.Nodup)
    (hmem : id ∈ s.tabs) (hcur : s.defCurrentViewId = some id) :
    ∃ t, succWrap s.tabs id = some t ∧ t ∈ s.tabs ∧ 1 ≤ t ∧
      (closeReassign s id).defCurrentViewId = some t ∧
      (2 ≤ s.tabs.length → t ≠ id) ∧
      closeReassign s id = currentViewIdSet s (some t) := by
  obtain ⟨k, hk, hkl, hkg⟩ := indexOf?_of_mem hmem
  have hlen1 : 1 ≤ s.tabs.length := List.length_pos.mpr (List.ne_nil_of_mem hmem)
  have hre : closeReassign s id =
      setCurrentView s s.tabs[(closeNextIndex s.tabs id).toNat]? := by
    unfold closeReassign; simp [hcur]
  by_cases hk1 : k = s.tabs.length - 1
  · have hc : jsIndexOf s.tabs id = (s.tabs.length : Int) - 1 := by
      unfold jsIndexOf; rw [hk]; dsimp only; omega
    have hidx : (closeNextIndex s.tabs id).toNat = 0 := by
      unfold closeNextIndex; rw [if_pos hc]; rfl
    have h0 : 0 < s.tabs.length := by omega
    obtain ⟨t0, ht0⟩ : ∃ t0, s.tabs[0]? = some t0 :=
      ⟨_, List.getElem?_eq_getElem h0⟩
    obtain ⟨hlt, hget⟩ := List.getElem?_eq_some.mp ht0
    have htmem : t0 ∈ s.tabs := hget ▸ List.getElem_mem hlt
    have ht1 : 1 ≤ t0 := (h2 _ htmem).1
    have ht0ne : t0 ≠ 0 := by unfold TabID at *; omega
    refine ⟨t0, ?_, htmem, ht1, ?_, ?_,
      by rw [hre, hidx, ht0, setCurrentView_some _ ht0ne]⟩
    · unfold succWrap; rw [hk]; simp [hk1, ht0]
    · rw [hre, hidx, ht0, setCurrentView_ptr, if_neg ht0ne]
    · intro hlen2 heq
      have h0k : (0 : Nat) = k :=
        List.getElem?_inj h0 h3 (by rw [ht0, heq, hkg])
      omega
  · have hc : ¬(jsIndexOf s.tabs id = (s.tabs.length : Int) - 1) := by
      unfold jsIndexOf; rw [hk]; dsimp only; omega
    have hidx : (closeNextIndex s.tabs id).toNat = k + 1 := by
      unfold closeNextIndex; rw [if_neg hc]; unfold jsIndexOf; rw [hk]; dsimp only; omega
    have hsucc : k + 1 < s.tabs.length := by omega
    obtain ⟨t, ht⟩ : ∃ t, s.tabs[k + 1]? = some t :=
      ⟨_, List.getElem?_eq_getElem hsucc⟩
    obtain ⟨hlt, hget⟩ := List.getElem?_eq_some.mp ht
    have htmem : t ∈ s.tabs := hget ▸ List.getElem_mem hlt
    have ht1 : 1 ≤ t := (h2 _ htmem).1
    have htne : t ≠ 0 := by unfold TabID at *; omega
    refine ⟨t, ?_, htmem, ht1, ?_, ?_,
      by rw [hre, hidx, ht, setCurrentView_some _ htne]⟩
    · unfold succWrap; rw [hk]; simp [hk1, ht]
    · rw [hre, hidx, ht, setCurrentView_ptr, if_neg htne]
    · intro _ heq
      have hkk : k + 1 = k :=
        List.getElem?_inj hsucc h3 (by rw [ht, heq, hkg])
      omega

/-! Association-list lookups after updates. -/

lemma lookup_assocSet_self {α β : Type} [DecidableEq α]
    (l : List (α × β)) (k : α) (v : β) :
    (assocSet l k v).lookup k = some v := by
  induction l with
  | nil => simp [assocSet, List.lookup]
  | cons p rest ih =>
    obtain ⟨k', v'⟩ := p
    unfold assocSet
    by_cases h : k' = k
    · simp [h, List.lookup]
    · simp only [if_neg h, List.lookup]
      have : (k == k') = false := by simp [Ne.symm h]
      simp [this, ih]

lemma lookup_assocSet_ne {α β : Type} [DecidableEq α]
    (l : List (α × β)) {k k' : α} (v : β) (h : k' ≠ k) :
    (assocSet l k v).lookup k' = l.lookup k' := by
  have hkk : (k' == k) = false := by simp [h]
  induction l with
  | nil => simp [assocSet, List.lookup, hkk]
  | cons p rest ih =>
    obtain ⟨a, b⟩ := p
    unfold assocSet
    by_cases ha : a = k
    · subst ha
      simp [List.lookup, show (k' == a) = false by simp [h]]
    · simp only [if_neg ha, List.lookup]
      cases hak : k' == a
      · simp [ih]
      · simp

lemma assocGet_set_self {α β : Type} [DecidableEq α]
    (l : List (α × Option β)) (k : α) (v : Option β) :
    assocGet (assocSet l k v) k = v := by
  unfold assocGet
  rw [lookup_assocSet_self]

lemma assocGet_set_ne {α β : Type} [DecidableEq α]
    (l : List (α × Option β)) {k k' : α} (v : Option β) (h : k' ≠ k) :
    assocGet (assocSet l k v) k' = assocGet l k' := by
  unfold assocGet
  rw [lookup_assocSet_ne _ _ h]

/-! Well-formedness is preserved by `closeTab`, and the C1 invariant. -/

lemma wf_closeTab {s : BState} (id : TabID) (h : Wf s) : Wf (closeTab s id) := by
  obtain ⟨h1, h2, h3, h4⟩ := h
  have hfsub : ∀ t ∈ s.tabs.filter (fun v => v ≠ id), 1 ≤ t ∧ t < s.nextId :=
    fun t ht => h2 t (List.mem_of_mem_filter ht)
  have hfnd : (s.tabs.filter (fun v => v ≠ id)).Nodup := h3.filter _
  simp only [closeTab]
  split
  case isTrue hlen =>
    apply wf_newTab
    · simpa using h1
    · intro t ht
      simp only [destroyView_tabs, tabConfigsSet_tabs, closeReassign_tabs] at ht
      simp only [destroyView_nextId, tabConfigsSet_nextId, closeReassign_nextId]
      exact hfsub t ht
    · simpa using hfnd
  case isFalse hlen =>
    simp only [destroyView_tabs, tabConfigsSet_tabs, closeReassign_tabs] at hlen
    refine ⟨by simpa using h1, ?_, by simpa using hfnd, ?_⟩
    · intro t ht
      simp only [destroyView_tabs, tabConfigsSet_tabs, closeReassign_tabs] at ht
      simp only [destroyView_nextId, tabConfigsSet_nextId, closeReassign_nextId]
      exact hfsub t ht
    · by_cases hcur : s.defCurrentViewId = some id
      · have hmem : id ∈ s.tabs := by
          rcases h4 with ⟨hn, _⟩ | ⟨p, hp, hpm⟩
          · rw [hn] at hcur; cases hcur
          · rw [hp] at hcur
            cases hcur
            exact hpm
        obtain ⟨t, _, htm, ht1, hptr, hne, _⟩ := closeReassign_active h2 h3 hmem hcur
        have hlen2 : 2 ≤ s.tabs.length := by
          have hne0 : s.tabs.filter (fun v => v ≠ id) ≠ [] := by
            intro he; exact hlen (by rw [he]; rfl)
          obtain ⟨u, hu⟩ := List.exists_mem_of_ne_nil _ hne0
          obtain ⟨hum, hud⟩ := List.mem_filter.mp hu
          have hud' : u ≠ id := by simpa using hud
          rcases hl : s.tabs with _ | ⟨a, _ | ⟨b, rest⟩⟩
          · rw [hl] at hmem; cases hmem
          · rw [hl] at hmem hum
            have hu1 : u = a := by simpa using hum
            have hi1 : id = a := by simpa using hmem
            exact absurd (hu1.trans hi1.symm) hud'
          · simp [hl]
        right
        refine ⟨t, ?_, ?_⟩
        · simpa [activePtrOk] using hptr
        · simp only [destroyView_tabs, tabConfigsSet_tabs, closeReassign_tabs]
          rw [List.mem_filter]
          exact ⟨htm, by simpa using hne hlen2⟩
      · rcases h4 with ⟨hn, ht⟩ | ⟨p, hp, hpm⟩
        · exfalso; exact hlen (by simp [ht])
        · right
          refine ⟨p, ?_, ?_⟩
          · simp [closeReassign_nonactive hcur, hp]
          · have hpne : p ≠ id := fun he => hcur (by rw [hp, he])
            simp only [destroyView_tabs, tabConfigsSet_tabs, closeReassign_tabs]
            rw [List.mem_filter]
            exact ⟨hpm, by simpa using hpne⟩

lemma wf_stepOp {s : BState} (op : TabOp) (h : Wf s) : Wf (stepOp s op) := by
  cases op with
  | create url a => exact wf_newTab url a h.1 h.2.1 h.2.2.1
  | close id => exact wf_closeTab id h

lemma wf_runOps {s : BState} (ops : List TabOp) (h : Wf s) :
    Wf (runOps s ops) := by
  induction ops generalizing s with
  | nil => exact h
  | cons op ops ih => exact ih (wf_stepOp op h)

lemma wf_init (c : Config) : Wf (initState c) := by
  refine ⟨le_refl 1, ?_, List.nodup_nil, Or.inl ⟨rfl, rfl⟩⟩
  intro t ht
  cases ht

/-- C1: for every sequence of tab create and close operations starting
from the initial state, after each operation completes the active
surface pointer is either absent with an empty tab order, or references
a TabID that is a member of the current tab order. -/
theorem activePointer_invariant (c : Config) (ops : List TabOp) :
    activePtrOk (runOps (initState c) ops) :=
  (wf_runOps ops (wf_init c)).2.2.2

/-! Record-level views of `setTabConfig` and `newTab`. -/

lemma setTabConfig_tabConfig_self (s : BState) (viewId : TabID) (kv : TabRec) :
    tabConfig (setTabConfig s viewId kv) viewId =
      some (applyPatch
        { (tabConfig s viewId).getD emptyRec with
            canGoBack := some (((getView s viewId).map Session.goBackOk).getD false)
            canGoForward := some (((getView s viewId).map Session.goForwardOk).getD false) }
        kv) := by
  unfold setTabConfig tabConfig
  simp only [tabConfigsSet_confs]
  exact assocGet_set_self _ _ _

lemma setTabConfig_tabConfig_ne (s : BState) (viewId : TabID) (kv : TabRec)
    {x : TabID} (h : x ≠ viewId) :
    tabConfig (setTabConfig s viewId kv) x = tabConfig s x := by
  unfold setTabConfig tabConfig
  simp only [tabConfigsSet_confs]
  exact assocGet_set_ne _ _ h

lemma newTab_tabConfig_ne (s : BState) (url : String) (a : Option TabID)
    {x : TabID} (h : x ≠ s.nextId) :
    tabConfig (newTab s url a) x = tabConfig s x := by
  unfold newTab
  rw [setTabConfig_tabConfig_ne _ _ _ h]
  unfold tabConfig
  split <;> simp

lemma getView_destroyView_self (s : BState) (id : TabID) :
    getView (destroyView s id) id = none := by
  unfold destroyView
  rcases h : getView s id with _ | w
  · simpa using h
  · simp only
    unfold getView
    exact assocGet_set_self _ _ _

/-! The two exit branches of `closeTab`. -/

lemma closeTab_of_filter_ne_nil {s : BState} {id : TabID}
    (h : s.tabs.filter (fun v => v ≠ id) ≠ []) :
    closeTab s id =
      destroyView (tabConfigsSet
        { closeReassign s id with
            tabs := (closeReassign s id).tabs.filter (fun v => v ≠ id) }
        (assocSet (closeReassign s id).defTabConfigs id none)) id := by
  simp only [closeTab]
  rw [if_neg]
  simp only [destroyView_tabs, tabConfigsSet_tabs, closeReassign_tabs]
  simpa [List.length_eq_zero] using h

lemma closeTab_of_filter_nil {s : BState} {id : TabID}
    (h : s.tabs.filter (fun v => v ≠ id) = []) :
    closeTab s id =
      (fun s4 => newTab s4 s4.cfg.blankPage none)
        (destroyView (tabConfigsSet
          { closeReassign s id with
              tabs := (closeReassign s id).tabs.filter (fun v => v ≠ id) }
          (assocSet (closeReassign s id).defTabConfigs id none)) id) := by
  simp only [closeTab]
  rw [if_pos]
  simp only [destroyView_tabs, tabConfigsSet_tabs, closeReassign_tabs]
  rw [List.length_eq_zero]
  exact h

/-- C2: closing a tab `id` present in the order: when `id` is active and
another tab remains, its wrapped immediate successor becomes active;
when `id` is the sole (active) tab, exactly one fresh blank tab is
created and activated; when `id` is not active the pointer is untouched.
In every case `id` leaves the tab order, its Tab record is cleared and
its view is destroyed. -/
theorem closeTab_spec (s : BState) (id : TabID) (hw : Wf s) (hmem : id ∈ s.tabs) :
    (s.defCurrentViewId = some id → 2 ≤ s.tabs.length →
      (closeTab s id).defCurrentViewId = succWrap s.tabs id ∧
      (closeTab s id).tabs = s.tabs.filter (fun v => v ≠ id) ∧
      tabConfig (closeTab s id) id = none ∧
      getView (closeTab s id) id = none) ∧
    (s.defCurrentViewId = some id → s.tabs = [id] →
      (closeTab s id).tabs = [s.nextId] ∧
      (closeTab s id).defCurrentViewId = some s.nextId ∧
      tabConfig (closeTab s id) id = none) ∧
    (s.defCurrentViewId ≠ some id →
      (closeTab s id).defCurrentViewId = s.defCurrentViewId ∧
      (closeTab s id).tabs = s.tabs.filter (fun v => v ≠ id) ∧
      tabConfig (closeTab s id) id = none ∧
      getView (closeTab s id) id = none) := by
  obtain ⟨h1, h2, h3, h4⟩ := hw
  refine ⟨?_, ?_, ?_⟩
  · intro hcur hlen2
    obtain ⟨t, hsw, htm, _, hptr, hne, _⟩ := closeReassign_active h2 h3 hmem hcur
    have htid : t ≠ id := hne hlen2
    have hfne : s.tabs.filter (fun v => v ≠ id) ≠ [] := by
      intro he
      have hin : t ∈ s.tabs.filter (fun v => v ≠ id) :=
        List.mem_filter.mpr ⟨htm, by simpa using htid⟩
      rw [he] at hin
      cases hin
    rw [closeTab_of_filter_ne_nil hfne]
    refine ⟨?_, by simp, ?_, getView_destroyView_self _ _⟩
    · simp only [destroyView_ptr, tabConfigsSet_ptr]
      rw [show ({ closeReassign s id with
          tabs := (closeReassign s id).tabs.filter (fun v => v ≠ id)
        } : BState).defCurrentViewId = (closeReassign s id).defCurrentViewId from rfl]
      rw [hptr, hsw]
    · unfold tabConfig
      simp only [destroyView_confs, tabConfigsSet_confs]
      rw [closeReassign_confs]
      exact assocGet_set_self _ _ _
  · intro hsole0 hsole
    have hfnil : s.tabs.filter (fun v => v ≠ id) = [] := by rw [hsole]; simp
    rw [closeTab_of_filter_nil hfnil]
    simp only []
    have hid2 : id < s.nextId := (h2 _ hmem).2
    refine ⟨?_, ?_, ?_⟩
    · rw [newTab_tabs]
      simp [insertTab, hsole]
    · have hnz : (destroyView (tabConfigsSet
          { closeReassign s id with
              tabs := (closeReassign s id).tabs.filter (fun v => v ≠ id) }
          (assocSet (closeReassign s id).defTabConfigs id none)) id).nextId ≠ 0 := by
        simp only [destroyView_nextId, tabConfigsSet_nextId]
        rw [show ({ closeReassign s id with
            tabs := (closeReassign s id).tabs.filter (fun v => v ≠ id)
          } : BState).nextId = s.nextId from by simp]
        unfold TabID at *
        omega
      rw [newTab_ptr _ _ _ hnz]
      simp
    · have hne' : id ≠ (destroyView (tabConfigsSet
          { closeReassign s id with
              tabs := (closeReassign s id).tabs.filter (fun v => v ≠ id) }
          (assocSet (closeReassign s id).defTabConfigs id none)) id).nextId := by
        simp only [destroyView_nextId, tabConfigsSet_nextId]
        rw [show ({ closeReassign s id with
            tabs := (closeReassign s id).tabs.filter (fun v => v ≠ id)
          } : BState).nextId = s.nextId from by simp]
        unfold TabID at *
        omega
      rw [newTab_tabConfig_ne _ _ _ hne']
      unfold tabConfig
      simp only [destroyView_confs, tabConfigsSet_confs]
      rw [closeReassign_confs]
      exact assocGet_set_self _ _ _
  · intro hcur
    rcases h4 with ⟨_, htn⟩ | ⟨p, hp, hpm⟩
    · rw [htn] at hmem; cases hmem
    · have hpne : p ≠ id := fun he => hcur (by rw [hp, he])
      have hfne : s.tabs.filter (fun v => v ≠ id) ≠ [] := by
        intro he
        have hin : p ∈ s.tabs.filter (fun v => v ≠ id) :=
          List.mem_filter.mpr ⟨hpm, by simpa using hpne⟩
        rw [he] at hin
        cases hin
      rw [closeTab_of_filter_ne_nil hfne]
      refine ⟨?_, by simp, ?_, getView_destroyView_self _ _⟩
      · simp only [destroyView_ptr, tabConfigsSet_ptr]
        rw [show ({ closeReassign s id with
            tabs := (closeReassign s id).tabs.filter (fun v => v ≠ id)
          } : BState).defCurrentViewId = (closeReassign s id).defCurrentViewId from rfl]
        rw [closeReassign_nonactive hcur]
      · unfold tabConfig
        simp only [destroyView_confs, tabConfigsSet_confs]
        rw [closeReassign_confs]
        exact assocGet_set_self _ _ _

/-- A concrete three-tab state `[1, 2, 3]` with tab 2 active. -/
def threeTabs : BState :=
  { defCurrentViewId := some 2
    tabs := [1, 2, 3]
    views := [(1, some {}), (2, some {}), (3, some {})]
    nextId := 4 }

/-- Witness for C2 at the spec's scenario: order `[A,B,C] = [1,2,3]` with
active `B = 2`; `close-tab(2)` activates `3` and leaves order `[1,3]`. -/
theorem closeTab_spec_witness :
    (closeTab threeTabs 2).defCurrentViewId = some 3 ∧
      (closeTab threeTabs 2).tabs = [1, 3] := by
  obtain ⟨hA, _, _⟩ := closeTab_spec threeTabs 2 (by decide) (by decide)
  obtain ⟨hp, ht, _, _⟩ := hA rfl (by decide)
  refine ⟨?_, ?_⟩
  · rw [hp]; decide
  · rw [ht]; decide

/-- C3: the default window-open policy on a parseable target: deny when
the target has no host; allow a genuine `new-window` disposition;
otherwise deny the native window and synchronously create a new tab
with the target URL spliced immediately after the originating tab. -/
theorem onNewWindow_spec (s : BState) (originId : TabID)
    (url disposition : String) (u : URLRec) (hp : parseURL url = some u) :
    (u.host = "" →
      onNewWindow s originId url disposition = Except.ok (OpenAction.deny, s)) ∧
    (u.host ≠ "" → disposition = "new-window" →
      onNewWindow s originId url disposition = Except.ok (OpenAction.allow, s)) ∧
    (u.host ≠ "" → disposition ≠ "new-window" → originId ≠ 0 →
      originId ∈ s.tabs →
      ∃ k, s.tabs.indexOf? originId = some k ∧
        onNewWindow s originId url disposition =
          Except.ok (OpenAction.deny, newTab s url (some originId)) ∧
        (newTab s url (some originId)).tabs =
          s.tabs.take (k + 1) ++ s.nextId :: s.tabs.drop (k + 1)) := by
  refine ⟨?_, ?_, ?_⟩
  · intro hh
    unfold onNewWindow
    rw [hp]
    simp [hh]
  · intro hh hd
    unfold onNewWindow
    rw [hp]
    simp [hh, hd]
  · intro hh hd h0 hmem
    obtain ⟨k, hk, _, _⟩ := indexOf?_of_mem hmem
    refine ⟨k, hk, ?_, ?_⟩
    · unfold onNewWindow
      rw [hp]
      simp [hh, hd]
    · rw [newTab_tabs]
      unfold insertTab
      dsimp only
      rw [if_neg h0]
      unfold jsIndexOf
      rw [hk]
      dsimp only
      have ht : ((k : Int) + 1).toNat = k + 1 := by omega
      rw [ht]
      unfold spliceIns
      simp

/-- Witness for C3 at the spec's vectors: `about:blank` is denied,
`https://a.test/x` with `new-window` is allowed, and the same URL with a
`foreground-tab` disposition is denied while the fresh tab is spliced
right after the originating tab 2 of `[1, 2, 3]`. -/
theorem onNewWindow_spec_witness :
    onNewWindow threeTabs 2 "about:blank" "foreground-tab" =
      Except.ok (OpenAction.deny, threeTabs) ∧
    onNewWindow threeTabs 2 "https://a.test/x" "new-window" =
      Except.ok (OpenAction.allow, threeTabs) ∧
    onNewWindow threeTabs 2 "https://a.test/x" "foreground-tab" =
      Except.ok (OpenAction.deny, newTab threeTabs "https://a.test/x" (some 2)) ∧
    (newTab threeTabs "https://a.test/x" (some 2)).tabs = [1, 2, 4, 3] := by
  obtain ⟨hb, _, _⟩ :=
    onNewWindow_spec threeTabs 2 "about:blank" "foreground-tab" ⟨"about", ""⟩ (by decide)
  obtain ⟨_, ha, hc⟩ :=
    onNewWindow_spec threeTabs 2 "https://a.test/x" "foreground-tab"
      ⟨"https", "a.test"⟩ (by decide)
  refine ⟨hb rfl, ?_, ?_, ?_⟩
  · obtain ⟨_, ha', _⟩ :=
      onNewWindow_spec threeTabs 2 "https://a.test/x" "new-window"
        ⟨"https", "a.test"⟩ (by decide)
    exact ha' (by decide) rfl
  · obtain ⟨k, hk, he, _⟩ := hc (by decide) (by decide) (by decide) (by decide)
    exact he
  · obtain ⟨k, hk, _, ht⟩ := hc (by decide) (by decide) (by decide) (by decide)
    have hk1 : k = 1 := by
      have : threeTabs.tabs.indexOf? 2 = some 1 := by decide
      rw [this] at hk
      exact (Option.some_inj.mp hk).symm
    rw [ht, hk1]
    decide

/-- C4 counterexample: a window-open request whose target string is not
parseable as a URL makes the default handler raise a URL-parse error
instead of deciding. -/
theorem onNewWindow_raises_counterexample :
    onNewWindow (initState {}) 1 "foo" "foreground-tab" =
      Except.error "Invalid URL" := rfl

/-- C4 (amended): for every target string that the URL constructor can
parse, the default handler never raises while deciding, and a parseable
target with no resolvable host is resolved as a deny; a non-parseable
target raises the constructor's error instead. -/
theorem onNewWindow_error_behavior (s : BState) (originId : TabID)
    (url disposition : String) :
    (∀ u, parseURL url = some u →
      (∃ r, onNewWindow s originId url disposition = Except.ok r) ∧
      (u.host = "" →
        onNewWindow s originId url disposition = Except.ok (OpenAction.deny, s))) ∧
    (parseURL url = none →
      onNewWindow s originId url disposition = Except.error "Invalid URL") := by
  constructor
  · intro u hp
    constructor
    · unfold onNewWindow
      rw [hp]
      by_cases hh : u.host = ""
      · exact ⟨(OpenAction.deny, s), by simp [hh]⟩
      · by_cases hd : disposition = "new-window"
        · exact ⟨(OpenAction.allow, s), by simp [hh, hd]⟩
        · exact ⟨(OpenAction.deny, newTab s url (some originId)), by simp [hh, hd]⟩
    · intro hh
      unfold onNewWindow
      rw [hp]
      simp [hh]
  · intro hp
    unfold onNewWindow
    rw [hp]

/-- Witness for the amended C4 at `about:blank`: parseable, hostless,
decided as a deny without an error. -/
theorem onNewWindow_error_behavior_witness :
    onNewWindow (initState {}) 1 "about:blank" "foreground-tab" =
      Except.ok (OpenAction.deny, initState {}) := by
  obtain ⟨hok, _⟩ :=
    (onNewWindow_error_behavior (initState {}) 1 "about:blank" "foreground-tab").1
      ⟨"about", ""⟩ (by decide)
  exact (onNewWindow_error_behavior (initState {}) 1 "about:blank"
    "foreground-tab").1 ⟨"about", ""⟩ (by decide) |>.2 rfl

/-- C10: `newTab` with a truthy `appendTo` id that is not a member of the
tab order splices the fresh id at the front of the order (position 0),
not at the end. -/
theorem newTab_appendTo_absent (s : BState) (url : String) (a : TabID)
    (ha0 : a ≠ 0) (hmem : a ∉ s.tabs) :
    (newTab s url (some a)).tabs = s.nextId :: s.tabs := by
  rw [newTab_tabs]
  unfold insertTab
  dsimp only
  rw [if_neg ha0]
  unfold jsIndexOf
  rw [indexOf?_of_not_mem hmem]
  dsimp only
  have ht : ((-1 : Int) + 1).toNat = 0 := by omega
  rw [ht]
  unfold spliceIns
  simp

/-- Witness for C10: appending next to the absent id 99 in `[1, 2, 3]`
puts the fresh tab 4 at the front. -/
theorem newTab_appendTo_absent_witness :
    (newTab threeTabs "" (some 99)).tabs = [4, 1, 2, 3] := by
  rw [newTab_appendTo_absent threeTabs "" 99 (by decide) (by decide)]
  decide

/-- A one-tab state whose live session cannot go back or forward. -/
def oneTabNoCaps : BState :=
  { defCurrentViewId := some 1
    tabs := [1]
    views := [(1, some {})]
    nextId := 2 }

/-- C5 counterexample: a merge whose patch itself carries `canGoBack`
ends with the patch value, not the session's capability — the patch is
spread after the refresh in `setTabConfig`. -/
theorem setTabConfig_patch_wins_counterexample :
    (tabConfig (setTabConfig oneTabNoCaps 1 { canGoBack := some true }) 1).map
        TabRec.canGoBack = some (some true) ∧
      ((getView oneTabNoCaps 1).map Session.goBackOk).getD false = false := by
  decide

/-- C5 (amended): for every merge performed by `setTabConfig` whose patch
does not itself target `canGoBack`/`canGoForward` — which holds for every
patch the program issues — the resulting record's capability fields equal
the live session's values at merge time (`false` when the session is
absent). -/
theorem setTabConfig_refreshes_caps (s : BState) (viewId : TabID) (kv : TabRec)
    (hb : kv.canGoBack = none) (hf : kv.canGoForward = none) :
    ∃ r, tabConfig (setTabConfig s viewId kv) viewId = some r ∧
      r.canGoBack = some (((getView s viewId).map Session.goBackOk).getD false) ∧
      r.canGoForward =
        some (((getView s viewId).map Session.goForwardOk).getD false) := by
  refine ⟨_, setTabConfig_tabConfig_self s viewId kv, ?_, ?_⟩ <;>
    simp [applyPatch, hb, hf]

/-- Witness for the amended C5: a title patch at a session with no
capabilities leaves both flags refreshed to `false`. -/
theorem setTabConfig_refreshes_caps_witness :
    ∃ r, tabConfig (setTabConfig oneTabNoCaps 1 { title := some "x" }) 1 =
        some r ∧
      r.canGoBack = some false ∧ r.canGoForward = some false := by
  obtain ⟨r, h1, h2, h3⟩ :=
    setTabConfig_refreshes_caps oneTabNoCaps 1 { title := some "x" } rfl rfl
  exact ⟨r, h1, by rw [h2]; decide, by rw [h3]; decide⟩

/-- A one-tab state whose stored record says `canGoBack = false` while
the live session meanwhile can go back. -/
def oneTabStale : BState :=
  { defCurrentViewId := some 1
    tabs := [1]
    views := [(1, some { goBackOk := true })]
    defTabConfigs := [(1, some { url := some "a", canGoBack := some false })]
    nextId := 2 }

/-- C7 counterexample: a url-change does not only set the url — it also
refreshes `canGoBack` from the live session, flipping a stored `false` to
`true` here. -/
theorem urlChange_counterexample :
    (tabConfig oneTabStale 1).map TabRec.canGoBack = some (some false) ∧
      (tabConfig (urlChange oneTabStale "b") 1).map TabRec.canGoBack =
        some (some true) := by
  decide

/-- C7 (amended): a url-change received while tab `id` is active sets the
active record's url to the payload and refreshes its
`canGoBack`/`canGoForward` from the live session; every other field of
that record, every other Tab record, the tab order, the active pointer
and the view map are unchanged. -/
theorem urlChange_spec (s : BState) (id : TabID) (u : String)
    (hcur : s.defCurrentViewId = some id) (hid : id ≠ 0) :
    (∃ r, tabConfig (urlChange s u) id = some r ∧
      r.url = some u ∧
      r.href = ((tabConfig s id).getD emptyRec).href ∧
      r.title = ((tabConfig s id).getD emptyRec).title ∧
      r.favicon = ((tabConfig s id).getD emptyRec).favicon ∧
      r.isLoading = ((tabConfig s id).getD emptyRec).isLoading ∧
      r.canGoBack = some (((getView s id).map Session.goBackOk).getD false) ∧
      r.canGoForward =
        some (((getView s id).map Session.goForwardOk).getD false)) ∧
    (∀ x, x ≠ id → tabConfig (urlChange s u) x = tabConfig s x) ∧
    (urlChange s u).tabs = s.tabs ∧
    (urlChange s u).defCurrentViewId = s.defCurrentViewId ∧
    (urlChange s u).views = s.views := by
  have he : urlChange s u = setTabConfig s id { url := some u } := by
    unfold urlChange
    rw [hcur]
    simp [hid]
  rw [he]
  refine ⟨⟨_, setTabConfig_tabConfig_self s id _, ?_, ?_, ?_, ?_, ?_, ?_, ?_⟩,
    ?_, by simp, ?_, by simp⟩
  · simp [applyPatch]
  · simp [applyPatch]
  · simp [applyPatch]
  · simp [applyPatch]
  · simp [applyPatch]
  · simp [applyPatch]
  · simp [applyPatch]
  · intro x hx
    exact setTabConfig_tabConfig_ne s id _ hx
  · rw [setTabConfig_ptr, hcur]

/-- Witness for the amended C7 at the stale-capability state. -/
theorem urlChange_spec_witness :
    ∃ r, tabConfig (urlChange oneTabStale "b") 1 = some r ∧
      r.url = some "b" ∧ r.canGoBack = some true := by
  obtain ⟨⟨r, h1, h2, _, _, _, _, h7, _⟩, _, _, _, _⟩ :=
    urlChange_spec oneTabStale 1 "b" rfl (by decide)
  exact ⟨r, h1, h2, by rw [h7]; decide⟩

/-! Delivery of notifications: nothing is sent while the reply handle is
absent, and the live-handle deltas of each operation. -/

lemma notifyCtl_quiet {s : BState} (m : Notif) (h : s.ipc = false) :
    notifyCtl s m = s := by
  unfold notifyCtl
  simp [h]

lemma currentViewIdSet_sent_quiet (s : BState) (id : Option TabID)
    (h : s.ipc = false) : (currentViewIdSet s id).sent = s.sent := by
  unfold currentViewIdSet
  rw [notifyCtl_quiet _ (by simp [h])]
  simp

lemma tabConfigsSet_sent_quiet (s : BState) (v : List (TabID × Option TabRec))
    (h : s.ipc = false) : (tabConfigsSet s v).sent = s.sent := by
  unfold tabConfigsSet
  rw [notifyCtl_quiet _ (by simp [h])]

lemma setTabConfig_sent_quiet (s : BState) (id : TabID) (kv : TabRec)
    (h : s.ipc = false) : (setTabConfig s id kv).sent = s.sent := by
  unfold setTabConfig
  exact tabConfigsSet_sent_quiet _ _ h

lemma setCurrentView_sent_quiet (s : BState) (v : Option TabID)
    (h : s.ipc = false) : (setCurrentView s v).sent = s.sent := by
  unfold setCurrentView
  split
  · rfl
  · split
    · rfl
    · exact currentViewIdSet_sent_quiet _ _ h

lemma newTab_sent_quiet (s : BState) (url : String) (a : Option TabID)
    (h : s.ipc = false) : (newTab s url a).sent = s.sent := by
  unfold newTab
  rw [setTabConfig_sent_quiet _ _ _ (by split <;> simp [h])]
  split
  · exact setCurrentView_sent_quiet _ _ (by simp [h])
  · rw [loadURL_sent]
    exact setCurrentView_sent_quiet _ _ (by simp [h])

lemma closeReassign_sent_quiet (s : BState) (id : TabID) (h : s.ipc = false) :
    (closeReassign s id).sent = s.sent := by
  unfold closeReassign
  split
  · exact setCurrentView_sent_quiet _ _ h
  · rfl

lemma closeTab_sent_quiet (s : BState) (id : TabID) (h : s.ipc = false) :
    (closeTab s id).sent = s.sent := by
  simp only [closeTab]
  split
  · rw [newTab_sent_quiet _ _ _ (by simp [h]), destroyView_sent,
      tabConfigsSet_sent_quiet _ _ (by simp [h])]
    exact closeReassign_sent_quiet _ _ h
  · rw [destroyView_sent, tabConfigsSet_sent_quiet _ _ (by simp [h])]
    exact closeReassign_sent_quiet _ _ h

lemma notifyCtl_sent_live {s : BState} (m : Notif) (h : s.ipc = true) :
    (notifyCtl s m).sent = s.sent ++ [m] := by
  unfold notifyCtl
  simp [h]

lemma currentViewIdSet_sent_live (s : BState) (id : Option TabID)
    (h : s.ipc = true) :
    (currentViewIdSet s id).sent = s.sent ++ [Notif.activeUpdate id] := by
  unfold currentViewIdSet
  rw [notifyCtl_sent_live _ (by simp [h])]
  simp

lemma tabConfigsSet_sent_live (s : BState) (v : List (TabID × Option TabRec))
    (h : s.ipc = true) :
    (tabConfigsSet s v).sent = s.sent ++ [Notif.tabsUpdate v s.tabs] := by
  unfold tabConfigsSet
  rw [notifyCtl_sent_live _ (by simp [h])]

lemma newTab_sent_live (s : BState) (url : String) (a : Option TabID)
    (h : s.ipc = true) (hnz : s.nextId ≠ 0) :
    (newTab s url a).sent =
      s.sent ++ [Notif.activeUpdate (some s.nextId),
        Notif.tabsUpdate (newTab s url a).defTabConfigs (newTab s url a).tabs] := by
  unfold newTab setTabConfig
  dsimp only
  rw [setCurrentView_some _ hnz]
  by_cases hu : url = ""
  · rw [if_pos hu]
    rw [tabConfigsSet_sent_live _ _ (by simp [h]),
      currentViewIdSet_sent_live _ _ (by simp [h]),
      tabConfigsSet_confs, tabConfigsSet_tabs]
    simp
  · rw [if_neg hu]
    rw [tabConfigsSet_sent_live _ _ (by simp [h]), loadURL_sent,
      currentViewIdSet_sent_live _ _ (by simp [h]),
      tabConfigsSet_confs, tabConfigsSet_tabs]
    simp

/-- C8: while the control-ready handshake has not been received (no reply
handle), every mutating operation delivers no notification at all — the
messages are dropped, not queued: once the handshake arrives, the log is
extended by exactly the handshake's own two notifications (the fresh
start-page tab's active-update and tabs-update), with nothing replayed. -/
theorem no_notification_before_handshake (s : BState) (h : s.ipc = false) :
    (∀ u, (urlChange s u).sent = s.sent) ∧
    (∀ url, (loadURL s url).sent = s.sent) ∧
    (∀ url a, (newTab s url a).sent = s.sent) ∧
    (∀ id, (switchTab s id).sent = s.sent) ∧
    (∀ id, (closeTab s id).sent = s.sent) ∧
    (s.nextId ≠ 0 → (controlReady s).sent =
      s.sent ++ [Notif.activeUpdate (some s.nextId),
        Notif.tabsUpdate (controlReady s).defTabConfigs (controlReady s).tabs]) := by
  refine ⟨?_, ?_, ?_, ?_, ?_, ?_⟩
  · intro u
    unfold urlChange
    split
    · split
      · rfl
      · exact setTabConfig_sent_quiet _ _ _ h
    · rfl
  · intro url
    exact loadURL_sent s url
  · intro url a
    exact newTab_sent_quiet _ _ _ h
  · intro id
    exact setCurrentView_sent_quiet _ _ h
  · intro id
    exact closeTab_sent_quiet _ _ h
  · intro hnz
    exact newTab_sent_live { s with ipc := true } _ none rfl hnz

/-- Witness for C8: from the pristine state (no handle), a url-change, a
tab creation and a tab close deliver nothing. -/
theorem no_notification_before_handshake_witness :
    (urlChange (initState {}) "x").sent = [] ∧
    (newTab (initState {}) "" none).sent = [] ∧
    (closeTab (initState {}) 1).sent = [] := by
  obtain ⟨h1, _, h3, _, h5, _⟩ :=
    no_notification_before_handshake (initState {}) rfl
  exact ⟨h1 "x", h3 "" none, h5 1⟩

/-! Listener registration discipline of `loadURL`. -/

lemma getView_updateView_self (s : BState) (id : TabID) (f : Session → Session) :
    getView (updateView s id f) id = (getView s id).map f := by
  unfold updateView
  rcases h : getView s id with _ | w
  · simp [h]
  · simp only [h, Option.map_some]
    unfold getView
    exact assocGet_set_self _ _ _

lemma getView_updateView_ne (s : BState) (id : TabID) (f : Session → Session)
    {x : TabID} (h : x ≠ id) :
    getView (updateView s id f) x = getView s x := by
  unfold updateView
  rcases hg : getView s id with _ | w
  · simp [hg]
  · simp only [hg]
    unfold getView
    exact assocGet_set_ne _ _ h

lemma getView_setContentBounds (s : BState) (x : TabID) :
    getView (setContentBounds s) x = getView s x := by
  unfold getView
  rw [setContentBounds_views]

lemma currentView_some {s : BState} {id : TabID} {w : Session}
    (h : currentView s = some (id, w)) :
    s.defCurrentViewId = some id ∧ id ≠ 0 ∧ getView s id = some w := by
  unfold currentView at h
  rcases hc : s.defCurrentViewId with _ | j <;> rw [hc] at h <;> dsimp only at h
  · cases h
  · by_cases hj : j = 0
    · rw [if_pos hj] at h; cases h
    · rw [if_neg hj] at h
      rcases hg : getView s j with _ | w' <;> rw [hg] at h
      · cases h
      · simp at h
        obtain ⟨h1, h2⟩ := h
        subst h1
        exact ⟨rfl, hj, by rw [hg, h2]⟩

/-- Every live session's listener-registration count matches its
`__IS_INITIALIZED__` marker: one if wired, zero otherwise. -/
def listenOnce (s : BState) : Prop :=
  ∀ id w, getView s id = some w → w.listens = (if w.wired then 1 else 0)

lemma listenOnce_loadURL {s : BState} (url : String) (h : listenOnce s) :
    listenOnce (loadURL s url) := by
  unfold loadURL
  split
  · exact h
  · split
    · exact h
    case h_2 cid wc hcv =>
      obtain ⟨_, _, hgv⟩ := currentView_some hcv
      split
      case isTrue hw =>
        intro x v hx
        by_cases hxi : x = cid
        · subst hxi
          rw [getView_updateView_self, hgv] at hx
          simp at hx
          subst hx
          exact h x wc hgv
        · rw [getView_updateView_ne _ _ _ hxi] at hx
          exact h x v hx
      case isFalse hw =>
        intro x v hx
        rw [getView_setContentBounds] at hx
        by_cases hxi : x = cid
        · subst hxi
          rw [getView_updateView_self, hgv] at hx
          simp at hx
          subst hx
          have hw0 : wc.wired = false := by
            revert hw
            cases wc.wired <;> simp
          have hthis := h x wc hgv
          rw [hw0] at hthis
          have hz : wc.listens = 0 := by simpa using hthis
          show wc.listens + 1 = if true = true then 1 else 0
          rw [hz]
          decide
        · rw [getView_updateView_ne _ _ _ hxi] at hx
          exact h x v hx

/-- C9: for every surface and every sequence of `loadURL` calls, the
lifecycle listeners are registered at most once (on the first, unwired
navigation), and a `loadURL` hitting an already wired surface only
delegates to the session's own navigation primitive. -/
theorem loadURL_wires_once (s : BState) (urls : List String)
    (h : listenOnce s) :
    listenOnce (urls.foldl loadURL s) ∧
    (∀ id w, getView (urls.foldl loadURL s) id = some w → w.listens ≤ 1) ∧
    (∀ url id w, currentView s = some (id, w) → w.wired = true → url ≠ "" →
      loadURL s url =
        updateView s id (fun w0 => { w0 with loads := w0.loads ++ [url] })) := by
  have hfold : ∀ (l : List String) (s0 : BState), listenOnce s0 →
      listenOnce (l.foldl loadURL s0) := by
    intro l
    induction l with
    | nil => intro s0 h0; exact h0
    | cons u rest ih => intro s0 h0; exact ih _ (listenOnce_loadURL u h0)
  refine ⟨hfold urls s h, ?_, ?_⟩
  · intro id w hw
    have hl := hfold urls s h id w hw
    cases hwired : w.wired <;> rw [hwired] at hl <;> simp at hl <;> omega
  · intro url id w hcv hwired hurl
    unfold loadURL
    rw [if_neg hurl, hcv]
    simp [hwired]

/-- Witness for C9: two successive navigations into the single unwired
tab of `oneTabNoCaps` leave exactly one listener registration on it. -/
theorem loadURL_wires_once_witness :
    listenOnce (["https://a.test/x", "https://b.test/y"].foldl
      loadURL oneTabNoCaps) := by
  have h0 : listenOnce oneTabNoCaps := by
    intro id w hw
    unfold oneTabNoCaps getView assocGet at hw
    by_cases hid : id = 1
    · subst hid
      simp [List.lookup] at hw
      subst hw
      rfl
    · have hbeq : (id == 1) = false := by simpa using hid
      simp [List.lookup, hbeq] at hw
  exact (loadURL_wires_once oneTabNoCaps _ h0).1

/-! Layout-recomputation counting. -/

lemma setContentBounds_layouts (s : BState) :
    (setContentBounds s).layouts =
      if (currentView s).isSome then s.layouts + 1 else s.layouts := by
  unfold setContentBounds
  rcases h : currentView s with _ | p <;> simp [h]

lemma currentView_of (B : BState) {id : TabID} {w : Session}
    (h1 : B.defCurrentViewId = some id) (h2 : id ≠ 0)
    (h3 : getView B id = some w) : currentView B = some (id, w) := by
  unfold currentView
  rw [h1]
  dsimp only
  rw [if_neg h2, h3]
  rfl

lemma currentViewIdSet_layouts_live (B : BState) (id : TabID) (hz : id ≠ 0)
    (hv : (getView B id).isSome = true) :
    (currentViewIdSet B (some id)).layouts = B.layouts + 1 := by
  unfold currentViewIdSet
  rw [notifyCtl_layouts, setContentBounds_layouts]
  have hcv : (currentView { B with defCurrentViewId := some id }).isSome = true := by
    unfold currentView
    dsimp only
    rw [if_neg hz]
    rcases hg : getView B id with _ | w
    · rw [hg] at hv
      cases hv
    · show ((getView B id).map _).isSome = true
      rw [hg]
      rfl
  rw [if_pos hcv]

lemma currentView_updateView (B : BState) {id : TabID} {w : Session}
    (f : Session → Session) (hcv : currentView B = some (id, w)) :
    currentView (updateView B id f) = some (id, f w) := by
  obtain ⟨h1, h2, h3⟩ := currentView_some hcv
  apply currentView_of
  · rw [updateView_ptr, h1]
  · exact h2
  · rw [getView_updateView_self, h3]
    rfl

lemma loadURL_layouts_fresh (B : BState) (url : String) (id : TabID)
    (w : Session) (hurl : url ≠ "") (hcv : currentView B = some (id, w))
    (hw : w.wired = false) :
    (loadURL B url).layouts = B.layouts + 1 := by
  unfold loadURL
  rw [if_neg hurl, hcv]
  dsimp only
  rw [if_neg (by simp [hw])]
  rw [setContentBounds_layouts]
  rw [currentView_updateView _ _ hcv]
  simp

lemma loadURL_layouts_wired (B : BState) (url : String) (id : TabID)
    (w : Session) (hurl : url ≠ "") (hcv : currentView B = some (id, w))
    (hw : w.wired = true) :
    (loadURL B url).layouts = B.layouts := by
  unfold loadURL
  rw [if_neg hurl, hcv]
  dsimp only
  rw [if_pos hw]
  simp

lemma getView_currentViewIdSet (B : BState) (v : Option TabID) (x : TabID) :
    getView (currentViewIdSet B v) x = getView B x := by
  unfold getView
  rw [currentViewIdSet_views]

lemma newTab_layouts (s : BState) (url : String) (a : Option TabID)
    (hnz : s.nextId ≠ 0) :
    (newTab s url a).layouts = s.layouts + (if url = "" then 1 else 2) := by
  unfold newTab
  dsimp only
  rw [setTabConfig_layouts, setCurrentView_some _ hnz]
  have hv3 : (getView
      { cfg := s.cfg, defCurrentViewId := s.defCurrentViewId
        defTabConfigs := s.defTabConfigs
        views := assocSet s.views s.nextId (some {})
        tabs := insertTab s.tabs a s.nextId, ipc := s.ipc
        nextId := s.nextId + 1, layouts := s.layouts
        sent := s.sent } s.nextId).isSome = true := by
    unfold getView
    dsimp only
    rw [assocGet_set_self]
    rfl
  by_cases hu : url = ""
  · rw [if_pos hu, if_pos hu]
    rw [currentViewIdSet_layouts_live _ _ hnz hv3]
  · rw [if_neg hu, if_neg hu]
    rw [loadURL_layouts_fresh _ url s.nextId {} hu
      (currentView_of _ (by rw [currentViewIdSet_ptr]) hnz
        (by rw [getView_currentViewIdSet]
            unfold getView
            dsimp only
            rw [assocGet_set_self])) rfl]
    rw [currentViewIdSet_layouts_live _ _ hnz hv3]

/-- The state immediately after the control-ready handshake of a
default-configured window. -/
def afterHandshake : BState := controlReady (initState {})

/-- C6 counterexample: after the handshake, creating a tab delivers two
notifications (an active-update and a tabs-update), not exactly one, and
creating a tab that loads a URL performs two layout recomputations. -/
theorem effect_count_counterexample :
    (newTab afterHandshake "" none).sent.length =
      afterHandshake.sent.length + 2 ∧
    (newTab afterHandshake "u" none).layouts = afterHandshake.layouts + 2 := by
  decide

/-- C6 (amended): after the handshake, activating a live tab performs
exactly one layout recomputation and one active-update notification;
creating a tab performs exactly two notifications (active-update then
tabs-update) and one layout recomputation — two when a URL is loaded
into the fresh surface; closing a non-active tab performs no layout
recomputation and exactly one tabs-update notification; closing the
active tab among at least two live tabs performs exactly one layout
recomputation and exactly two notifications (active-update of the
successor, then tabs-update). -/
theorem effects_per_operation (s : BState) (hipc : s.ipc = true) :
    (∀ id w, id ≠ 0 → getView s id = some w →
      (switchTab s id).layouts = s.layouts + 1 ∧
      (switchTab s id).sent = s.sent ++ [Notif.activeUpdate (some id)]) ∧
    (s.nextId ≠ 0 →
      (∀ url a, (newTab s url a).layouts =
        s.layouts + (if url = "" then 1 else 2)) ∧
      (∀ url a, (newTab s url a).sent = s.sent ++
        [Notif.activeUpdate (some s.nextId),
         Notif.tabsUpdate (newTab s url a).defTabConfigs
           (newTab s url a).tabs])) ∧
    (∀ id, s.defCurrentViewId ≠ some id →
      s.tabs.filter (fun v => v ≠ id) ≠ [] →
      (closeTab s id).layouts = s.layouts ∧
      (closeTab s id).sent = s.sent ++
        [Notif.tabsUpdate (closeTab s id).defTabConfigs
          (s.tabs.filter (fun v => v ≠ id))]) ∧
    (∀ id, Wf s → id ∈ s.tabs → 2 ≤ s.tabs.length →
      (∀ x ∈ s.tabs, (getView s x).isSome = true) →
      s.defCurrentViewId = some id →
      (closeTab s id).layouts = s.layouts + 1 ∧
      ∃ t, (closeTab s id).sent = s.sent ++
        [Notif.activeUpdate (some t),
         Notif.tabsUpdate (closeTab s id).defTabConfigs
           (s.tabs.filter (fun v => v ≠ id))]) := by
  refine ⟨?_, ?_, ?_, ?_⟩
  · intro id w hz hv
    unfold switchTab
    rw [setCurrentView_some _ hz]
    exact ⟨currentViewIdSet_layouts_live s id hz (by rw [hv]; rfl),
      currentViewIdSet_sent_live _ _ hipc⟩
  · intro hnz
    exact ⟨fun url a => newTab_layouts s url a hnz,
      fun url a => newTab_sent_live s url a hipc hnz⟩
  · intro id hcur hfne
    rw [closeTab_of_filter_ne_nil hfne, closeReassign_nonactive hcur]
    constructor
    · rw [destroyView_layouts, tabConfigsSet_layouts]
    · rw [destroyView_sent, tabConfigsSet_sent_live _ _ (by simp [hipc])]
      simp only [destroyView_confs, tabConfigsSet_confs]
  · intro id hw hmem hlen2 hall hcur
    obtain ⟨h1, h2, h3, h4⟩ := hw
    obtain ⟨t, hsw, htm, ht1, hptr, hne, heq⟩ :=
      closeReassign_active h2 h3 hmem hcur
    have htid : t ≠ id := hne hlen2
    have hfne : s.tabs.filter (fun v => v ≠ id) ≠ [] := by
      intro he
      have hin : t ∈ s.tabs.filter (fun v => v ≠ id) :=
        List.mem_filter.mpr ⟨htm, by simpa using htid⟩
      rw [he] at hin
      cases hin
    rw [closeTab_of_filter_ne_nil hfne, heq]
    constructor
    · rw [destroyView_layouts, tabConfigsSet_layouts]
      show (currentViewIdSet s (some t)).layouts = s.layouts + 1
      exact currentViewIdSet_layouts_live s t
        (by unfold TabID at *; omega) (hall t htm)
    · refine ⟨t, ?_⟩
      rw [destroyView_sent, tabConfigsSet_sent_live _ _ (by simp [hipc])]
      simp only [destroyView_confs, tabConfigsSet_confs,
        currentViewIdSet_sent_live s (some t) hipc, currentViewIdSet_tabs,
        currentViewIdSet_confs]
      simp

/-- Witness for the amended C6: activating the single live tab of the
post-handshake state performs one layout recomputation and one
active-update notification. -/
theorem effects_per_operation_witness :
    (switchTab afterHandshake 1).layouts = afterHandshake.layouts + 1 ∧
    (switchTab afterHandshake 1).sent =
      afterHandshake.sent ++ [Notif.activeUpdate (some 1)] := by
  obtain ⟨hA, _, _, _⟩ := effects_per_operation afterHandshake (by decide)
  exact hA 1 {} (by decide) (by decide)

end Browser
